import Mathlib

/-!
Verification of the Azure blob-storage remote adapter (`dvc/tree/azure.py`)
against its natural-language specification.  The Python class `AzureTree` is
shallowly embedded: pure logic becomes Lean functions, the remote store and
the adapter's lazily initialized client become explicit state, and Python
exceptions become `Except` results.
-/

set_option autoImplicit false

namespace DvcAzure

/-! ## Path references (dvc's `CloudURLInfo`)

The `CloudURLInfo` class lives in `dvc/path_info.py`, which is not part of the
reviewed file set; it is modelled from the specification: a path reference is
a (scheme, container, path-within-container) triple with textual form
`<scheme>://<container>[/<path>]`, immutable, supporting derivation of a new
reference by appending or replacing the path component. -/

structure CloudURLInfo where
  scheme : String
  bucket : String
  path : String
deriving DecidableEq, Repr

/-- Split a character list at the first occurrence of `sep`, returning the
part before and the part after, or `none` when `sep` does not occur. -/
def splitOnce (sep : Char) : List Char → Option (List Char × List Char)
  | [] => none
  | c :: cs =>
    if c = sep then some ([], cs)
    else (splitOnce sep cs).map (fun p => (c :: p.1, p.2))

/-- Modelled from the spec: parsing of the textual form
`<scheme>://<container>[/<path>]` (dvc's `CloudURLInfo`, built on `urlparse`;
not under the reviewed file set).  The scheme is everything before the first
`:`; when it is followed by `//`, the container is the run up to the next `/`
and the path is the rest. -/
def parseCloudURL (url : String) : CloudURLInfo :=
  match splitOnce ':' url.data with
  | none => ⟨"", "", url⟩
  | some (sch, rest) =>
    match rest with
    | '/' :: '/' :: body =>
      match splitOnce '/' body with
      | none => ⟨String.mk sch, String.mk body, ""⟩
      | some (b, p) => ⟨String.mk sch, String.mk b, String.mk p⟩
    | _ => ⟨String.mk sch, "", String.mk rest⟩

/-- Modelled from the spec: `path_info / component` derives a new reference by
appending a path component; appending the empty component leaves a trailing
separator (`posixpath.join` semantics). -/
def CloudURLInfo.div (pi : CloudURLInfo) (comp : String) : CloudURLInfo :=
  { pi with path := if pi.path = "" then comp else pi.path ++ "/" ++ comp }

/-- Modelled from the spec: `path_info.replace(path=p)` replaces only the
path-within-container component. -/
def CloudURLInfo.withPath (pi : CloudURLInfo) (p : String) : CloudURLInfo :=
  { pi with path := p }

/-! ## Configuration and credential resolution -/

/-- The per-remote configuration mapping consumed by `AzureTree.__init__`:
recognized options `url`, `connection_string`, `sas_token`, `account`, `key`,
each possibly absent (`None` / missing key in the Python dict). -/
structure Config where
  url : Option String
  connection_string : Option String
  sas_token : Option String
  account : Option String
  key : Option String
deriving DecidableEq, Repr

/-- The locally stored CLI credential profile (`_az_config`, a knack
`CLIConfig` over `~/.azure`), restricted to the `storage` section keys the
adapter reads; each value possibly absent. -/
structure AzConfig where
  container_name : Option String
  connection_string : Option String
  sas_token : Option String
  account : Option String
  key : Option String
deriving DecidableEq, Repr

/-- `self._az_config.get("storage", opt, None)` for the option names the
adapter uses. -/
def AzConfig.get (az : AzConfig) (opt : String) : Option String :=
  if opt = "container_name" then az.container_name
  else if opt = "connection_string" then az.connection_string
  else if opt = "sas_token" then az.sas_token
  else if opt = "account" then az.account
  else if opt = "key" then az.key
  else none

/-- `config.get(opt)` for the option names used in the `_conn_kwargs`
comprehension. -/
def Config.get (cfg : Config) (opt : String) : Option String :=
  if opt = "connection_string" then cfg.connection_string
  else if opt = "sas_token" then cfg.sas_token
  else if opt = "account" then cfg.account
  else if opt = "key" then cfg.key
  else none

/-- Python's `a or b` on optional strings: the left value wins unless it is
falsy (`None` or the empty string). -/
def pyOr (a b : Option String) : Option String :=
  match a with
  | none => b
  | some s => if s = "" then b else some s

/-- Python's f-string rendering of a possibly-`None` string value
(`f"azure://{container}"` renders `None` as the text `None`). -/
def pyStr : Option String → String
  | none => "None"
  | some s => s

/-- The `_conn_kwargs` dict assembled by `AzureTree.__init__`. -/
structure ConnKwargs where
  connection_string : Option String
  sas_token : Option String
  account_name : Option String
  account_key : Option String
deriving DecidableEq, Repr

/-- The part of an `AzureTree` instance fixed at construction time. -/
structure AzureTree where
  path_info : CloudURLInfo
  conn_kwargs : ConnKwargs
deriving DecidableEq, Repr

/-- `AzureTree.scheme = Schemes.AZURE`. -/
def azureScheme : String := "azure"

/-- `AzureTree.__init__`: resolves the target container from the `url` option
(default `azure://`) or, when that names no container, from the profile's
`container_name`; assembles `_conn_kwargs` with `connection_string` and
`sas_token` taken from the explicit config when truthy else from the profile,
and `account_name`/`account_key` taken from the profile's `account`/`key`. -/
def AzureTree.init (config : Config) (az : AzConfig) : AzureTree :=
  let url := config.url.getD "azure://"
  let pi0 := parseCloudURL url
  let path_info :=
    if pi0.bucket = "" then
      parseCloudURL ("azure://" ++ pyStr (az.get "container_name"))
    else pi0
  { path_info := path_info
    conn_kwargs :=
      { connection_string :=
          pyOr (config.get "connection_string") (az.get "connection_string")
        sas_token := pyOr (config.get "sas_token") (az.get "sas_token")
        account_name := az.get "account"
        account_key := az.get "key" } }

/-! ## The remote store and the blob-service SDK surface

The Azure SDK (`BlockBlobService`) is external to the repository; the store it
talks to is modelled as explicit state: an ordered association list of blobs
keyed by (container, blob name), each carrying the optional `content-md5`
metadata string stored with it, plus the set of existing containers.  SDK
calls become functions on this state; a missing resource becomes the
`AzureMissingResourceHttpError` the SDK raises. -/

inductive AzureError where
  | missingResource
deriving DecidableEq, Repr

structure Store where
  containers : List String
  blobs : List ((String × String) × Option String)
deriving DecidableEq, Repr

/-- The stored content-md5 metadata of the blob at (bucket, path):
`none` when no such blob exists, `some md5?` when it exists with optional
metadata. -/
def Store.lookup (st : Store) (bucket path : String) : Option (Option String) :=
  (st.blobs.find? (fun e => e.1 == (bucket, path))).map (fun e => e.2)

/-- `BlockBlobService.get_blob_properties(bucket, path)`, reduced to the one
field the adapter reads (`properties.content_settings.content_md5`); raises
`AzureMissingResourceHttpError` when the blob does not exist. -/
def get_blob_properties (st : Store) (bucket path : String) :
    Except AzureError (Option String) :=
  match st.lookup bucket path with
  | none => .error .missingResource
  | some md5 => .ok md5

/-- `BlockBlobService.exists(bucket, path)`: true iff the blob exists; a
plain boolean, never an error. -/
def blob_exists (st : Store) (bucket path : String) : Bool :=
  (st.lookup bucket path).isSome

/-- `BlockBlobService.delete_blob(bucket, path)`: removes the one blob at
(bucket, path); raises `AzureMissingResourceHttpError` when it does not
exist. -/
def delete_blob (st : Store) (bucket path : String) : Except AzureError Store :=
  if (st.lookup bucket path).isSome then
    .ok { st with blobs := st.blobs.filter (fun e => !(e.1 == (bucket, path))) }
  else .error .missingResource

/-! ## Base64 decoding and hex rendering

`_get_md5sum_file` runs `b64decode(file_md5.strip('"')).hex()`.  The standard
library's `b64decode` (default lenient mode: characters outside the alphabet
are discarded, decoding stops at padding) and `bytes.hex` are modelled
directly. -/

/-- The value of a base64 alphabet character, `none` for other characters. -/
def b64charVal (c : Char) : Option Nat :=
  if 'A' ≤ c ∧ c ≤ 'Z' then some (c.toNat - 65)
  else if 'a' ≤ c ∧ c ≤ 'z' then some (c.toNat - 97 + 26)
  else if '0' ≤ c ∧ c ≤ '9' then some (c.toNat - 48 + 52)
  else if c = '+' then some 62
  else if c = '/' then some 63
  else none

/-- Reassemble 6-bit groups into 8-bit bytes, four sextets to three bytes,
with the usual truncation for a final partial group. -/
def sextetsToBytes : List Nat → List Nat
  | a :: b :: c :: d :: rest =>
    (a * 4 + b / 16) :: ((b % 16) * 16 + c / 4) :: ((c % 4) * 64 + d)
      :: sextetsToBytes rest
  | [a, b] => [a * 4 + b / 16]
  | [a, b, c] => [a * 4 + b / 16, (b % 16) * 16 + c / 4]
  | _ => []

/-- `base64.b64decode` in its default lenient mode, as a byte list. -/
def b64decode (s : String) : List Nat :=
  sextetsToBytes ((s.data.takeWhile (fun c => c ≠ '=')).filterMap b64charVal)

def hexDigit (n : Nat) : Char :=
  if n < 10 then Char.ofNat (48 + n) else Char.ofNat (87 + n)

/-- `bytes.hex()`: lowercase hexadecimal rendering. -/
def bytesToHex (bs : List Nat) : String :=
  String.mk ((bs.map (fun b => [hexDigit (b / 16), hexDigit (b % 16)])).flatten)

/-- Python's `str.strip(c)`: removes `c` from both ends. -/
def stripChar (s : String) (c : Char) : String :=
  String.mk (((s.data.dropWhile (fun x => x = c)).reverse.dropWhile
    (fun x => x = c)).reverse)

/-! ## Hash lookup, directory emulation -/

/-- `AzureTree._get_md5sum_file(bucket, path)`: reads the blob's content-md5
metadata via `get_blob_properties` (so a missing blob raises), and returns
`b64decode(file_md5.strip('"')).hex()` when the metadata is truthy, `None`
otherwise. -/
def _get_md5sum_file (st : Store) (bucket path : String) :
    Except AzureError (Option String) :=
  match get_blob_properties st bucket path with
  | .error e => .error e
  | .ok file_md5 =>
    .ok (match file_md5 with
      | none => none
      | some m =>
        if m = "" then none
        else some (bytesToHex (b64decode (stripChar m '"'))))

/-- `AzureTree.get_file_hash(path_info)`. -/
def get_file_hash (st : Store) (pi : CloudURLInfo) : Except AzureError (Option String) :=
  _get_md5sum_file st pi.bucket pi.path

/-- `AzureTree.isdir(path_info)`: `self._get_md5sum_file(...) is None`
(a raised missing-resource error propagates). -/
def isdir (st : Store) (pi : CloudURLInfo) : Except AzureError Bool :=
  match _get_md5sum_file st pi.bucket pi.path with
  | .error e => .error e
  | .ok r => .ok r.isNone

/-! ## Lazy client construction and `exists` -/

/-- `BlockBlobService.list_blobs(bucket, delimiter="/", num_results=1)` used
as a container probe: succeeds when the container exists, raises
`AzureMissingResourceHttpError` otherwise. -/
def list_blobs_probe (st : Store) (bucket : String) : Except AzureError Unit :=
  if st.containers.contains bucket then .ok () else .error .missingResource

/-- `BlockBlobService.create_container(bucket)`. -/
def create_container (st : Store) (bucket : String) : Store :=
  { st with containers := bucket :: st.containers }

/-- The body of the lazy `blob_service` property on its first access: builds
the client, probes the target container with a bounded listing, and creates
the container when the probe raises the missing-resource error; its effect on
the store state. -/
def blob_service_init (st : Store) (bucket : String) : Store :=
  match list_blobs_probe st bucket with
  | .ok _ => st
  | .error .missingResource => create_container st bucket

/-- Whether the instance's cached `blob_service` handle has been constructed
yet (the `cached_property` cell behind the lock). -/
structure TreeState where
  clientReady : Bool
deriving DecidableEq, Repr

/-- `AzureTree.exists(path_info)`: touching `self.blob_service` runs the lazy
initialization when the handle is not yet cached, then delegates to the
store's native existence check.  Returns the boolean result together with the
resulting store and adapter states. -/
def exists_call (st : Store) (ts : TreeState) (treeBucket : String)
    (pi : CloudURLInfo) : Bool × Store × TreeState :=
  let st' := if ts.clientReady then st else blob_service_init st treeBucket
  (blob_exists st' pi.bucket pi.path, st', ⟨true⟩)

/-! ## Paginated listing -/

/-- The remote side of one `list_blobs(bucket, prefix=...)` query: the
sequence of pages the store serves, in order.  A request carrying no marker
is answered with page 0; a request carrying marker `i` is answered with page
`i`; the response carries marker `i+1` exactly when further pages remain. -/
structure PagedListing where
  pages : List (List String)
deriving DecidableEq, Repr

/-- `blob_service.list_blobs(bucket, prefix=prefix, marker=next_marker)`:
one page request, returning the page's blob names and its `next_marker`. -/
def PagedListing.request (L : PagedListing) (marker : Option Nat) :
    List String × Option Nat :=
  let i := match marker with | none => 0 | some j => j
  (L.pages.getD i [], if i + 1 < L.pages.length then some (i + 1) else none)

/-- The `while True` loop of `AzureTree._list_paths`: request a page, yield
its names, stop when no `next_marker` is returned, else request again with
that marker.  Returns the yielded names together with the list of markers the
issued requests carried (one entry per request, in order).  `fuel` bounds the
recursion; the source loop terminates because markers strictly advance, and
the theorems instantiate `fuel` with the number of pages. -/
def _list_paths_loop (L : PagedListing) :
    Option Nat → Nat → List String × List (Option Nat)
  | _, 0 => ([], [])
  | marker, fuel + 1 =>
    let req := L.request marker
    match req.2 with
    | none => (req.1, [marker])
    | some m =>
      let rest := _list_paths_loop L (some m) fuel
      (req.1 ++ rest.1, marker :: rest.2)

/-- `AzureTree._list_paths(bucket, prefix)`: the loop started with
`next_marker = None`. -/
def _list_paths (L : PagedListing) : List String × List (Option Nat) :=
  _list_paths_loop L none L.pages.length

/-! ## `walk_files` -/

/-- Python's `str.endswith` for a one-character suffix: true iff the string
is nonempty and its last character is `c`. -/
def endsWithChar (s : String) (c : Char) : Bool :=
  match s.data.getLast? with
  | some d => d == c
  | none => false

/-- The per-name body of the `walk_files` generator: skip names ending in the
path separator (`fname.endswith("/")`), skip names whose `_get_md5sum_file`
is `None` (a raised missing-resource error propagates), yield
`path_info.replace(path=fname)` otherwise. -/
def walk_files_go (st : Store) (pi : CloudURLInfo) :
    List String → Except AzureError (List CloudURLInfo)
  | [] => .ok []
  | fname :: rest =>
    if endsWithChar fname '/' then walk_files_go st pi rest
    else
      match _get_md5sum_file st pi.bucket fname with
      | .error e => .error e
      | .ok none => walk_files_go st pi rest
      | .ok (some _) =>
        (walk_files_go st pi rest).map (fun l => pi.withPath fname :: l)

/-- `AzureTree.walk_files(path_info, **kwargs)`: unless `prefix=True` is
passed, the query reference first has a trailing separator appended
(`path_info / ""`); then the names produced by `_list_paths` over the served
pages `L` are filtered and rebased as in `walk_files_go`. -/
def walk_files (st : Store) (L : PagedListing) (pi0 : CloudURLInfo)
    (preMode : Bool) : Except AzureError (List CloudURLInfo) :=
  let pi := if preMode then pi0 else pi0.div ""
  walk_files_go st pi (_list_paths L).1

/-! ## `remove` -/

inductive RemoveError where
  | notImplemented
  | azure (e : AzureError)
deriving DecidableEq, Repr

/-- `AzureTree.remove(path_info)`: raises `NotImplementedError` before any
client or store access when the reference's scheme differs from the
adapter's scheme; otherwise touching `self.blob_service` first runs the lazy
initialization when the handle is not yet cached (which may create the
adapter's own target container `treeBucket`), then `delete_blob` deletes the
one blob at (bucket, path).  Returns the outcome together with the resulting
store and adapter states. -/
def remove (st : Store) (ts : TreeState) (treeBucket : String)
    (pi : CloudURLInfo) : Except RemoveError Unit × Store × TreeState :=
  if pi.scheme ≠ azureScheme then (.error .notImplemented, st, ts)
  else
    let st' := if ts.clientReady then st else blob_service_init st treeBucket
    match delete_blob st' pi.bucket pi.path with
    | .ok st'' => (.ok (), st'', ⟨true⟩)
    | .error e => (.error (.azure e), st', ⟨true⟩)

/-- Whether `_get_md5sum_file` yields a present hash: no error and not
`None`. -/
def hashPresent (st : Store) (bucket f : String) : Bool :=
  match _get_md5sum_file st bucket f with
  | .ok (some _) => true
  | _ => false

/-! ## Theorems -/

/-- C7: for every store state and path reference, `isdir(p)` returns true
exactly when `get_file_hash(p)` returns an absent hash — the two operations
query the same underlying metadata through `_get_md5sum_file`. -/
theorem isdir_iff_get_file_hash_none (st : Store) (pi : CloudURLInfo) :
    isdir st pi = .ok true ↔ get_file_hash st pi = .ok none := by
  unfold isdir get_file_hash
  cases h : _get_md5sum_file st pi.bucket pi.path with
  | error e => simp
  | ok r => cases r <;> simp

/-- C1 counterexample: with an explicit `account = "explicit"` (and
`key = "ekey"`) in the per-remote config and `account = "profile"`
(`key = "pkey"`) in the CLI profile, the constructor resolves
`account_name` to the profile's value, not the explicit config value —
refuting the claimed config-over-profile precedence for `account`/`key`;
moreover an explicit but empty `connection_string = ""` is also overridden
by the profile's value, refuting the claimed precedence for every present
config value even on the options that do consult the config. -/
theorem auth_precedence_counterexample :
    ((AzureTree.init ⟨none, some "", none, some "explicit", some "ekey"⟩
        ⟨some "c", some "pconn", some "psas", some "profile", some "pkey"⟩
      ).conn_kwargs.account_name = some "profile") ∧
    ((AzureTree.init ⟨none, some "", none, some "explicit", some "ekey"⟩
        ⟨some "c", some "pconn", some "psas", some "profile", some "pkey"⟩
      ).conn_kwargs.account_name ≠ some "explicit") ∧
    ((AzureTree.init ⟨none, some "", none, some "explicit", some "ekey"⟩
        ⟨some "c", some "pconn", some "psas", some "profile", some "pkey"⟩
      ).conn_kwargs.account_key = some "pkey") ∧
    ((AzureTree.init ⟨none, some "", none, some "explicit", some "ekey"⟩
        ⟨some "c", some "pconn", some "psas", some "profile", some "pkey"⟩
      ).conn_kwargs.connection_string = some "pconn") ∧
    ((AzureTree.init ⟨none, some "", none, some "explicit", some "ekey"⟩
        ⟨some "c", some "pconn", some "psas", some "profile", some "pkey"⟩
      ).conn_kwargs.connection_string ≠ some "") := by
  refine ⟨rfl, ?_, rfl, rfl, ?_⟩
  · intro h
    rw [show (AzureTree.init ⟨none, some "", none, some "explicit", some "ekey"⟩
        ⟨some "c", some "pconn", some "psas", some "profile", some "pkey"⟩
      ).conn_kwargs.account_name = some "profile" from rfl] at h
    simp at h
  · intro h
    rw [show (AzureTree.init ⟨none, some "", none, some "explicit", some "ekey"⟩
        ⟨some "c", some "pconn", some "psas", some "profile", some "pkey"⟩
      ).conn_kwargs.connection_string = some "pconn" from rfl] at h
    simp at h

/-- C1 amended: `connection_string` and `sas_token` are resolved by taking
the explicit per-remote config value when present and non-empty, and
otherwise — when the config value is absent or present but empty — the
profile's value; `account_name` and `account_key` are always taken from the
profile's `account` and `key`, ignoring any explicit config value. -/
theorem auth_option_precedence (cfg : Config) (az : AzConfig) :
    (∀ s, s ≠ "" → cfg.connection_string = some s →
      (AzureTree.init cfg az).conn_kwargs.connection_string = some s) ∧
    (cfg.connection_string = none ∨ cfg.connection_string = some "" →
      (AzureTree.init cfg az).conn_kwargs.connection_string
        = az.connection_string) ∧
    (∀ s, s ≠ "" → cfg.sas_token = some s →
      (AzureTree.init cfg az).conn_kwargs.sas_token = some s) ∧
    (cfg.sas_token = none ∨ cfg.sas_token = some "" →
      (AzureTree.init cfg az).conn_kwargs.sas_token = az.sas_token) ∧
    ((AzureTree.init cfg az).conn_kwargs.account_name = az.account) ∧
    ((AzureTree.init cfg az).conn_kwargs.account_key = az.key) := by
  refine ⟨?_, ?_, ?_, ?_, ?_, ?_⟩
  · intro s hs hcs
    simp [AzureTree.init, Config.get, pyOr, hcs, hs]
  · intro hcs
    rcases hcs with hcs | hcs <;>
      simp [AzureTree.init, Config.get, AzConfig.get, pyOr, hcs]
  · intro s hs hcs
    simp [AzureTree.init, Config.get, pyOr, hcs, hs]
  · intro hcs
    rcases hcs with hcs | hcs <;>
      simp [AzureTree.init, Config.get, AzConfig.get, pyOr, hcs]
  · simp [AzureTree.init, AzConfig.get]
  · simp [AzureTree.init, AzConfig.get]

/-- Witness for `auth_option_precedence` at concrete configurations,
exercising the non-empty explicit value, the absent value and the
present-but-empty value. -/
theorem auth_option_precedence_witness :
    ((AzureTree.init ⟨none, some "cs", some "tok", some "a", some "k"⟩
        ⟨some "c", some "pc", some "ps", some "pa", some "pk"⟩
      ).conn_kwargs.connection_string = some "cs") ∧
    ((AzureTree.init ⟨none, none, none, some "a", some "k"⟩
        ⟨some "c", some "pc", some "ps", some "pa", some "pk"⟩
      ).conn_kwargs.sas_token
      = (⟨some "c", some "pc", some "ps", some "pa", some "pk"⟩ : AzConfig).sas_token) ∧
    ((AzureTree.init ⟨none, some "", some "", some "a", some "k"⟩
        ⟨some "c", some "pc", some "ps", some "pa", some "pk"⟩
      ).conn_kwargs.connection_string
      = (⟨some "c", some "pc", some "ps", some "pa", some "pk"⟩ : AzConfig).connection_string) :=
  ⟨(auth_option_precedence
      ⟨none, some "cs", some "tok", some "a", some "k"⟩
      ⟨some "c", some "pc", some "ps", some "pa", some "pk"⟩).1
      "cs" (by decide) rfl,
   (auth_option_precedence
      ⟨none, none, none, some "a", some "k"⟩
      ⟨some "c", some "pc", some "ps", some "pa", some "pk"⟩).2.2.2.1
      (Or.inl rfl),
   (auth_option_precedence
      ⟨none, some "", some "", some "a", some "k"⟩
      ⟨some "c", some "pc", some "ps", some "pa", some "pk"⟩).2.1
      (Or.inr rfl)⟩

/-- C2 counterexample: on a store with no object at the queried path,
`get_file_hash` propagates the store's missing-resource error instead of
returning an absent hash. -/
theorem get_file_hash_missing_raises_counterexample :
    (get_file_hash ⟨[], []⟩ ⟨"azure", "c", "p"⟩
      = .error .missingResource) ∧
    (get_file_hash ⟨[], []⟩ ⟨"azure", "c", "p"⟩
      ≠ .ok none) := by
  refine ⟨rfl, ?_⟩
  intro h
  rw [show get_file_hash ⟨[], []⟩ ⟨"azure", "c", "p"⟩
      = .error .missingResource from rfl] at h
  simp at h

/-- C2 amended: `get_file_hash` returns an absent result when the object
exists but carries no stored content-hash metadata; when no object exists at
the path, the store's missing-resource error propagates uncaught. -/
theorem get_file_hash_absent_vs_missing (st : Store) (pi : CloudURLInfo) :
    (st.lookup pi.bucket pi.path = some none →
      get_file_hash st pi = .ok none) ∧
    (st.lookup pi.bucket pi.path = none →
      get_file_hash st pi = .error .missingResource) := by
  constructor <;> intro h <;>
    simp [get_file_hash, _get_md5sum_file, get_blob_properties, h]

/-- Witness for `get_file_hash_absent_vs_missing` at concrete stores. -/
theorem get_file_hash_absent_vs_missing_witness :
    (get_file_hash ⟨["c"], [(("c", "p"), none)]⟩ ⟨"azure", "c", "p"⟩
      = .ok none) ∧
    (get_file_hash ⟨["c"], []⟩ ⟨"azure", "q", "r"⟩
      = .error .missingResource) :=
  ⟨(get_file_hash_absent_vs_missing ⟨["c"], [(("c", "p"), none)]⟩
      ⟨"azure", "c", "p"⟩).1 rfl,
   (get_file_hash_absent_vs_missing ⟨["c"], []⟩ ⟨"azure", "q", "r"⟩).2 rfl⟩

/-- C3 counterexample: on an adapter whose client is not yet constructed and
whose target container is missing from the store, the first `exists` call
mutates the store (the lazy client bootstrap creates the container). -/
theorem exists_first_call_mutates_counterexample :
    (exists_call ⟨[], []⟩ ⟨false⟩ "c" ⟨"azure", "c", "p"⟩).2.1
      ≠ (⟨[], []⟩ : Store) := by
  decide

/-- C3 amended: `exists` never creates, modifies or deletes any object, and
its boolean result is exactly the store's native existence check; once the
client handle is cached (or whenever the target container already exists) it
performs no mutation at all.  Only the first call on an adapter whose target
container is missing mutates the store, by creating that container during
lazy client construction. -/
theorem exists_frame (st : Store) (ts : TreeState) (tb : String)
    (pi : CloudURLInfo) :
    ((exists_call st ts tb pi).2.1.blobs = st.blobs) ∧
    ((exists_call st ts tb pi).1
      = blob_exists (exists_call st ts tb pi).2.1 pi.bucket pi.path) ∧
    (ts.clientReady = true → (exists_call st ts tb pi).2.1 = st) ∧
    (st.containers.contains tb = true → (exists_call st ts tb pi).2.1 = st) := by
  unfold exists_call blob_service_init list_blobs_probe create_container
  cases hr : ts.clientReady <;> cases hc : st.containers.contains tb <;>
    simp [hr, hc]

/-- Witness for `exists_frame` at a concrete store and adapter state. -/
theorem exists_frame_witness :
    ((exists_call ⟨["c"], [(("c", "p"), none)]⟩ ⟨true⟩ "c"
        ⟨"azure", "c", "p"⟩).2.1 = ⟨["c"], [(("c", "p"), none)]⟩) ∧
    ((exists_call ⟨["c"], [(("c", "p"), none)]⟩ ⟨false⟩ "c"
        ⟨"azure", "c", "p"⟩).2.1 = ⟨["c"], [(("c", "p"), none)]⟩) :=
  ⟨(exists_frame ⟨["c"], [(("c", "p"), none)]⟩ ⟨true⟩ "c"
      ⟨"azure", "c", "p"⟩).2.2.1 rfl,
   (exists_frame ⟨["c"], [(("c", "p"), none)]⟩ ⟨false⟩ "c"
      ⟨"azure", "c", "p"⟩).2.2.2 (by decide)⟩

/-! ### URL parsing lemmas for the container fallback -/

lemma splitOnce_of_not_mem {sep : Char} :
    ∀ {cs : List Char}, sep ∉ cs → splitOnce sep cs = none
  | [], _ => rfl
  | c :: cs, h => by
    have hc : ¬ c = sep := fun he => h (he ▸ List.mem_cons_self c cs)
    have ht : sep ∉ cs := fun hm => h (List.mem_cons_of_mem c hm)
    simp [splitOnce, hc, splitOnce_of_not_mem ht]

lemma splitOnce_azure_scheme (cs : List Char) :
    splitOnce ':' ('a' :: 'z' :: 'u' :: 'r' :: 'e' :: ':' :: cs)
      = some (['a', 'z', 'u', 'r', 'e'], cs) := rfl

/-- Parsing `azure://C` for a container name `C` free of the path separator
yields scheme `azure`, container `C` and an empty path. -/
lemma parseCloudURL_azure_container (C : String) (h : '/' ∉ C.data) :
    parseCloudURL ("azure://" ++ C) = ⟨"azure", C, ""⟩ := by
  have hdata : ("azure://" ++ C).data
      = 'a' :: 'z' :: 'u' :: 'r' :: 'e' :: ':' :: '/' :: '/' :: C.data := by
    rw [String.data_append]
    rfl
  unfold parseCloudURL
  rw [hdata, splitOnce_azure_scheme]
  simp [splitOnce_of_not_mem h]

/-- C8: for every configuration whose `url` option names no container and
every profile storing a default container name `C` (separator-free), the
constructed adapter's path reference has container `C`. -/
theorem container_fallback_to_profile (config : Config) (az : AzConfig)
    (C : String)
    (hurl : (parseCloudURL (config.url.getD "azure://")).bucket = "")
    (hC : az.container_name = some C) (hsep : '/' ∉ C.data) :
    (AzureTree.init config az).path_info.bucket = C := by
  unfold AzureTree.init
  simp [hurl, AzConfig.get, hC, pyStr, parseCloudURL_azure_container C hsep]

/-- Witness for `container_fallback_to_profile` at a concrete configuration
and profile. -/
theorem container_fallback_to_profile_witness :
    (AzureTree.init ⟨none, none, none, none, none⟩
        ⟨some "mycontainer", none, none, none, none⟩).path_info.bucket
      = "mycontainer" :=
  container_fallback_to_profile ⟨none, none, none, none, none⟩
    ⟨some "mycontainer", none, none, none, none⟩ "mycontainer"
    rfl rfl (by decide)

/-! ### Pagination lemmas -/

/-- The loop started at page `i` with fuel covering the remaining pages
yields the concatenation of the remaining pages and issues one request per
remaining page, carrying markers `i, i+1, ...` in order. -/
lemma _list_paths_loop_spec (L : PagedListing) :
    ∀ (fuel i : Nat), fuel + i = L.pages.length → i < L.pages.length →
      _list_paths_loop L (some i) fuel
        = ((L.pages.drop i).flatten, (List.range' i fuel).map some) := by
  intro fuel
  induction fuel with
  | zero =>
    intro i hfi hi
    omega
  | succ n ih =>
    intro i hfi hi
    have hgetD : L.pages.getD i [] = L.pages[i] :=
      List.getD_eq_getElem L.pages [] hi
    have hdrop : L.pages.drop i = L.pages[i] :: L.pages.drop (i + 1) :=
      List.drop_eq_getElem_cons hi
    by_cases hnext : i + 1 < L.pages.length
    · have hrec := ih (i + 1) (by omega) hnext
      simp only [_list_paths_loop, PagedListing.request, hnext, if_pos,
        hrec, hgetD, hdrop, List.flatten_cons, List.range'_succ, List.map_cons]
    · have hlen : i + 1 = L.pages.length := by omega
      have hn : n = 0 := by omega
      have hdropnil : L.pages.drop (i + 1) = [] :=
        List.drop_eq_nil_of_le (by omega)
      subst hn
      simp only [_list_paths_loop, PagedListing.request, hnext, if_neg,
        not_false_iff, hgetD, hdrop, hdropnil, List.flatten_cons,
        List.flatten_nil, List.append_nil, List.range'_succ, List.range'_zero,
        List.map_cons, List.map_nil]

/-- `_list_paths` over a nonempty page sequence, in closed form. -/
lemma _list_paths_eq (p : List String) (ps : List (List String)) :
    _list_paths ⟨p :: ps⟩
      = ((p :: ps).flatten, none :: (List.range' 1 ps.length).map some) := by
  cases ps with
  | nil =>
    simp [_list_paths, _list_paths_loop, PagedListing.request]
  | cons q qs =>
    have hreq : (⟨p :: q :: qs⟩ : PagedListing).request none = (p, some 1) := by
      simp only [PagedListing.request]
      rw [if_pos (by simp)]
      simp
    have hrec := _list_paths_loop_spec ⟨p :: q :: qs⟩ (qs.length + 1) 1
      (by simp) (by simp)
    have hstep : _list_paths ⟨p :: q :: qs⟩
        = (p ++ (_list_paths_loop ⟨p :: q :: qs⟩ (some 1) (qs.length + 1)).1,
           none :: (_list_paths_loop ⟨p :: q :: qs⟩
             (some 1) (qs.length + 1)).2) := by
      show _list_paths_loop ⟨p :: q :: qs⟩ none (qs.length + 1 + 1) = _
      simp only [_list_paths_loop]
      rw [hreq]
    rw [hstep, hrec]
    simp [List.range'_succ]

/-- C4: for every listing served in `n ≥ 1` pages, `_list_paths` yields the
concatenation of all pages (the full object set, no duplicates and no
omissions beyond those of the pages themselves) and issues exactly `n` page
requests, the first with no marker and each subsequent one carrying the
marker `i` returned by the previous page, in order. -/
theorem list_paths_pagination (L : PagedListing) (h : 0 < L.pages.length) :
    (_list_paths L).1 = L.pages.flatten ∧
    (_list_paths L).2
      = none :: (List.range' 1 (L.pages.length - 1)).map some ∧
    (_list_paths L).2.length = L.pages.length := by
  obtain ⟨pages⟩ := L
  cases pages with
  | nil => simp at h
  | cons p ps =>
    rw [show (⟨p :: ps⟩ : PagedListing).pages = p :: ps from rfl,
      _list_paths_eq p ps]
    refine ⟨rfl, by simp, by simp⟩

/-- Witness for `list_paths_pagination` on the spec's three-page example. -/
theorem list_paths_pagination_witness :
    ((_list_paths ⟨[["a", "b"], ["c"], ["d", "e"]]⟩).1
      = (⟨[["a", "b"], ["c"], ["d", "e"]]⟩ : PagedListing).pages.flatten) ∧
    ((_list_paths ⟨[["a", "b"], ["c"], ["d", "e"]]⟩).2
      = none :: (List.range' 1
          ((⟨[["a", "b"], ["c"], ["d", "e"]]⟩ : PagedListing).pages.length - 1)).map some) ∧
    ((_list_paths ⟨[["a", "b"], ["c"], ["d", "e"]]⟩).2.length
      = (⟨[["a", "b"], ["c"], ["d", "e"]]⟩ : PagedListing).pages.length) :=
  list_paths_pagination ⟨[["a", "b"], ["c"], ["d", "e"]]⟩ (by decide)

/-! ### `walk_files` lemmas -/

/-- When a blob exists at (bucket, f), `_get_md5sum_file` does not raise. -/
lemma _get_md5sum_file_ok_of_lookup_isSome (st : Store) (bucket f : String)
    (h : (st.lookup bucket f).isSome = true) :
    ∃ r, _get_md5sum_file st bucket f = .ok r := by
  unfold _get_md5sum_file get_blob_properties
  cases hl : st.lookup bucket f with
  | none => rw [hl] at h; simp at h
  | some md5 => exact ⟨_, rfl⟩

/-- The `walk_files` generator body over a name list every member of which
names an existing blob: it succeeds, and yields exactly the rebased names
that do not end in the separator and whose content hash is present. -/
lemma walk_files_go_spec (st : Store) (pi : CloudURLInfo) :
    ∀ names : List String,
      (∀ f ∈ names, (st.lookup pi.bucket f).isSome = true) →
      walk_files_go st pi names
        = .ok ((names.filter
              (fun f => !(endsWithChar f '/') && hashPresent st pi.bucket f)).map
            (fun f => pi.withPath f)) := by
  intro names
  induction names with
  | nil => intro _; rfl
  | cons f rest ih =>
    intro h
    have hf : (st.lookup pi.bucket f).isSome = true :=
      h f (List.mem_cons_self f rest)
    have hrest := ih (fun g hg => h g (List.mem_cons_of_mem f hg))
    by_cases hsep : endsWithChar f '/'
    · simp [walk_files_go, hsep, hrest, List.filter_cons, hashPresent]
    · obtain ⟨r, hr⟩ := _get_md5sum_file_ok_of_lookup_isSome st pi.bucket f hf
      cases r with
      | none =>
        simp [walk_files_go, hsep, hr, hrest, List.filter_cons, hashPresent]
      | some m =>
        simp [walk_files_go, hsep, hr, hrest, List.filter_cons, hashPresent,
          Except.map]

/-- C5: over a listing whose served names all name existing blobs,
`walk_files` yields exactly the listed entries that do not end in the path
separator and whose content hash is present, rebased onto the query
reference — directory markers and hashless entries are excluded. -/
theorem walk_files_filters (st : Store) (L : PagedListing)
    (pi0 : CloudURLInfo) (preMode : Bool)
    (h : ∀ f ∈ (_list_paths L).1,
      (st.lookup (if preMode then pi0 else pi0.div "").bucket f).isSome
        = true) :
    walk_files st L pi0 preMode
      = .ok (((_list_paths L).1.filter
            (fun f => !(endsWithChar f '/') &&
              hashPresent st (if preMode then pi0 else pi0.div "").bucket f)).map
          (fun f => (if preMode then pi0 else pi0.div "").withPath f)) := by
  unfold walk_files
  cases preMode with
  | true => exact walk_files_go_spec st pi0 (_list_paths L).1 (by simpa using h)
  | false =>
    exact walk_files_go_spec st (pi0.div "") (_list_paths L).1 (by simpa using h)

/-- Witness for `walk_files_filters` on the spec's example: over objects
`a/x` (with hash), `a/` (no hash, trailing separator) and `a/y` (no hash),
exactly `a/x` is yielded. -/
theorem walk_files_filters_witness :
    walk_files
        ⟨["c"], [(("c", "a/x"), some "AQ=="), (("c", "a/"), none),
          (("c", "a/y"), none)]⟩
        ⟨[["a/x", "a/", "a/y"]]⟩ ⟨"azure", "c", "a"⟩ true
      = .ok [⟨"azure", "c", "a/x"⟩] :=
  (walk_files_filters
      ⟨["c"], [(("c", "a/x"), some "AQ=="), (("c", "a/"), none),
        (("c", "a/y"), none)]⟩
      ⟨[["a/x", "a/", "a/y"]]⟩ ⟨"azure", "c", "a"⟩ true
      (by decide)).trans rfl

/-- Every reference yielded by the `walk_files` body keeps the base
reference's scheme and container. -/
lemma walk_files_go_same_scheme_bucket (st : Store) (pi : CloudURLInfo) :
    ∀ (names : List String) (res : List CloudURLInfo),
      walk_files_go st pi names = .ok res →
      ∀ r ∈ res, r.scheme = pi.scheme ∧ r.bucket = pi.bucket := by
  intro names
  induction names with
  | nil =>
    intro res hres r hr
    rw [show walk_files_go st pi [] = .ok [] from rfl] at hres
    cases hres
    simp at hr
  | cons f rest ih =>
    intro res hres r hr
    by_cases hsep : endsWithChar f '/'
    · rw [show walk_files_go st pi (f :: rest) = walk_files_go st pi rest by
        simp [walk_files_go, hsep]] at hres
      exact ih res hres r hr
    · cases hmd5 : _get_md5sum_file st pi.bucket f with
      | error e =>
        rw [show walk_files_go st pi (f :: rest) = .error e by
          simp [walk_files_go, hsep, hmd5]] at hres
        cases hres
      | ok o =>
        cases o with
        | none =>
          rw [show walk_files_go st pi (f :: rest) = walk_files_go st pi rest by
            simp [walk_files_go, hsep, hmd5]] at hres
          exact ih res hres r hr
        | some m =>
          rw [show walk_files_go st pi (f :: rest)
              = (walk_files_go st pi rest).map
                  (fun l => pi.withPath f :: l) by
            simp [walk_files_go, hsep, hmd5]] at hres
          cases htl : walk_files_go st pi rest with
          | error e => rw [htl] at hres; cases hres
          | ok tl =>
            rw [htl] at hres
            cases hres
            rcases List.mem_cons.mp hr with hhead | htail
            · subst hhead
              exact ⟨rfl, rfl⟩
            · exact ih tl htl r htail

/-- C10: every path reference yielded by `walk_files` has the same scheme
and the same container as the query reference — results are derived from
the query by replacing only the path-within-container component. -/
theorem walk_files_same_scheme_bucket (st : Store) (L : PagedListing)
    (pi0 : CloudURLInfo) (preMode : Bool) (res : List CloudURLInfo)
    (h : walk_files st L pi0 preMode = .ok res) :
    ∀ r ∈ res, r.scheme = pi0.scheme ∧ r.bucket = pi0.bucket := by
  unfold walk_files at h
  cases preMode with
  | true =>
    simpa using walk_files_go_same_scheme_bucket st pi0 (_list_paths L).1 res h
  | false =>
    simpa using
      walk_files_go_same_scheme_bucket st (pi0.div "") (_list_paths L).1 res h

/-- Witness for `walk_files_same_scheme_bucket` at a concrete listing. -/
theorem walk_files_same_scheme_bucket_witness :
    (CloudURLInfo.mk "azure" "k" "z").scheme
        = (CloudURLInfo.mk "azure" "k" "").scheme ∧
    (CloudURLInfo.mk "azure" "k" "z").bucket
        = (CloudURLInfo.mk "azure" "k" "").bucket :=
  walk_files_same_scheme_bucket
    ⟨["k"], [(("k", "z"), some "AQ==")]⟩ ⟨[["z"]]⟩ ⟨"azure", "k", ""⟩ true
    [⟨"azure", "k", "z"⟩] rfl ⟨"azure", "k", "z"⟩ (by simp)

/-! ### `remove` lemmas -/

/-- Deleting the entries with key `k` from an association list leaves every
lookup under a key other than `k` unchanged, and makes lookups under `k`
fail. -/
lemma find?_filter_erase (k k' : String × String) :
    ∀ blobs : List ((String × String) × Option String),
      (blobs.filter (fun e => !(e.1 == k))).find? (fun e => e.1 == k')
        = if k' = k then none else blobs.find? (fun e => e.1 == k') := by
  intro blobs
  induction blobs with
  | nil => simp
  | cons e rest ih =>
    by_cases hek : e.1 = k <;> by_cases hkk : k' = k <;>
      by_cases hek' : e.1 = k' <;>
      simp_all [List.filter_cons, List.find?_cons, beq_iff_eq]

/-- The lazy client bootstrap only ever touches the container set, never the
blobs. -/
lemma blob_service_init_blobs (st : Store) (tb : String) :
    (blob_service_init st tb).blobs = st.blobs := by
  unfold blob_service_init list_blobs_probe create_container
  by_cases h : tb ∈ st.containers <;> simp [h]

/-- On a post-bootstrap store `st'` with the same blobs as `st`,
`delete_blob` succeeds on an existing blob and removes exactly the one
object: every other lookup agrees with `st`. -/
lemma delete_blob_exact (st st' : Store) (hb : st'.blobs = st.blobs)
    (pi : CloudURLInfo)
    (hex : (st.lookup pi.bucket pi.path).isSome = true) :
    delete_blob st' pi.bucket pi.path
      = .ok ⟨st'.containers,
          st'.blobs.filter (fun e => !(e.1 == (pi.bucket, pi.path)))⟩ ∧
    ∀ b p,
      (⟨st'.containers,
          st'.blobs.filter (fun e => !(e.1 == (pi.bucket, pi.path)))⟩
        : Store).lookup b p
        = if (b, p) = (pi.bucket, pi.path) then none else st.lookup b p := by
  have hlk : ∀ b p, st'.lookup b p = st.lookup b p := by
    intro b p
    unfold Store.lookup
    rw [hb]
  constructor
  · simp [delete_blob, hlk, hex]
  · intro b p
    simp only [Store.lookup]
    rw [find?_filter_erase (pi.bucket, pi.path) (b, p) st'.blobs, hb]
    by_cases hbp : (b, p) = (pi.bucket, pi.path) <;> simp [hbp]

/-- C6: `remove` on a reference whose scheme differs from the adapter's
raises `NotImplementedError`, leaving the store and the cached-client state
untouched (it returns before any client or store access); on a
matching-scheme reference naming an existing blob it succeeds and deletes
exactly the one object at (container, path): every other object lookup is
unchanged, whatever the cached-client state (the lazy bootstrap a first
call triggers touches only the container set, never any object). -/
theorem remove_scheme_guard_and_exact_delete (st : Store) (ts : TreeState)
    (tb : String) (pi : CloudURLInfo) :
    (pi.scheme ≠ azureScheme →
      remove st ts tb pi = (.error .notImplemented, st, ts)) ∧
    (pi.scheme = azureScheme →
      (st.lookup pi.bucket pi.path).isSome = true →
      (remove st ts tb pi).1 = .ok () ∧
      ∀ b p, (remove st ts tb pi).2.1.lookup b p
        = if (b, p) = (pi.bucket, pi.path) then none
          else st.lookup b p) := by
  constructor
  · intro hne
    simp [remove, hne]
  · intro hs hex
    obtain ⟨ready⟩ := ts
    cases ready with
    | true =>
      obtain ⟨hdel, hlkup⟩ := delete_blob_exact st st rfl pi hex
      refine ⟨by simp [remove, hs, hdel], ?_⟩
      intro b p
      have hst : (remove st ⟨true⟩ tb pi).2.1
          = ⟨st.containers,
              st.blobs.filter (fun e => !(e.1 == (pi.bucket, pi.path)))⟩ := by
        simp [remove, hs, hdel]
      rw [hst]
      exact hlkup b p
    | false =>
      obtain ⟨hdel, hlkup⟩ := delete_blob_exact st (blob_service_init st tb)
        (blob_service_init_blobs st tb) pi hex
      refine ⟨by simp [remove, hs, hdel], ?_⟩
      intro b p
      have hst : (remove st ⟨false⟩ tb pi).2.1
          = ⟨(blob_service_init st tb).containers,
              (blob_service_init st tb).blobs.filter
                (fun e => !(e.1 == (pi.bucket, pi.path)))⟩ := by
        simp [remove, hs, hdel]
      rw [hst]
      exact hlkup b p

/-- Witness for `remove_scheme_guard_and_exact_delete`: a scheme-mismatched
reference is rejected with store and client state unchanged even before the
first client use, and a matching one (on a first call, client not yet
cached) deletes the single named object while leaving another object's
lookup unchanged. -/
theorem remove_scheme_guard_witness :
    (remove ⟨["c"], [(("c", "p"), none)]⟩ ⟨false⟩ "c" ⟨"s3", "c", "p"⟩
      = (.error .notImplemented, ⟨["c"], [(("c", "p"), none)]⟩, ⟨false⟩)) ∧
    ((remove ⟨["c"], [(("c", "p"), none), (("c", "q"), none)]⟩ ⟨false⟩ "c"
        ⟨"azure", "c", "p"⟩).2.1.lookup "c" "p" = none) ∧
    ((remove ⟨["c"], [(("c", "p"), none), (("c", "q"), none)]⟩ ⟨false⟩ "c"
        ⟨"azure", "c", "p"⟩).2.1.lookup "c" "q"
      = (⟨["c"], [(("c", "p"), none), (("c", "q"), none)]⟩ : Store).lookup
          "c" "q") := by
  refine ⟨?_, ?_, ?_⟩
  · exact (remove_scheme_guard_and_exact_delete
      ⟨["c"], [(("c", "p"), none)]⟩ ⟨false⟩ "c" ⟨"s3", "c", "p"⟩).1
      (by decide)
  · have h := ((remove_scheme_guard_and_exact_delete
      ⟨["c"], [(("c", "p"), none), (("c", "q"), none)]⟩ ⟨false⟩ "c"
      ⟨"azure", "c", "p"⟩).2 rfl (by decide)).2 "c" "p"
    rw [h]
    decide
  · have h := ((remove_scheme_guard_and_exact_delete
      ⟨["c"], [(("c", "p"), none), (("c", "q"), none)]⟩ ⟨false⟩ "c"
      ⟨"azure", "c", "p"⟩).2 rfl (by decide)).2 "c" "q"
    rw [h]
    decide

end DvcAzure
